import Mathlib

/-!
  # Verification of the Video-to-Flashcards pipeline

  A shallow embedding of the server side of the Video-to-Flash-cards
  repository, covering:

  * the in-memory store `MemStorage` and its operations
    (`server/storage.ts`): `createVideo`, `getVideo`, `updateVideoStatus`,
    `updateVideoTranscription`, `createFlashcard`,
    `getFlashcardsByVideoId`, `createStudySession`, `getStudySession`,
    `getStudySessionByVideoId`, `updateStudySession`;
  * the transcript quality gate and flashcard-generation wrapper
    `generateFlashcards` (`server/lib/openai.ts`, validated revision);
  * the background pipelines `processVideo` and `processVideoFromUrl`
    (`server/routes.ts`, the revision with real audio extraction),
    modelled as the sequence of store writes they perform, parametrised
    by the outcomes of the external collaborators (ffmpeg/whisper and the
    generation provider);
  * the create-study-session route (`registerRoutes`) and the client
    study state machine (`client/src/components/study-interface.tsx`).

  JavaScript `Map`s are modelled as lists in insertion order (`Map.set`
  of a fresh key appends, of an existing key replaces in place);
  `String.prototype.includes` and `toLowerCase` are modelled over the
  character list of a `String` (the transcripts of interest are ASCII,
  where JS UTF-16 length and codepoint length agree).
-/

/-! ## JS string primitives -/

/-- Model of prefix testing on character lists: every element of the
pattern matches the corresponding element at the front of the list. -/
def charListStartsWith : List Char → List Char → Bool
  | _, [] => true
  | [], _ :: _ => false
  | c :: cs, p :: ps => c == p && charListStartsWith cs ps

/-- Model of contiguous-substring search on character lists: the pattern
occurs at the front, or somewhere in the tail. -/
def hasSubList (pat : List Char) : List Char → Bool
  | [] => pat.isEmpty
  | c :: rest => charListStartsWith (c :: rest) pat || hasSubList pat rest

/-- Model of JavaScript `s.includes(pat)`. -/
def jsIncludes (s pat : String) : Bool :=
  hasSubList pat.data s.data

/-- Model of JavaScript `s.toLowerCase()` (ASCII case folding). -/
def jsToLower (s : String) : String :=
  String.mk (s.data.map Char.toLower)

/-! ## Data model (shared schema, as populated by `MemStorage`) -/

/-- Fields supplied at video creation (`insertVideoSchema`). -/
structure InsertVideo where
  filename : String
  originalName : String
  fileSize : Nat
  mimeType : String
  videoUrl : Option String
deriving DecidableEq

/-- A job record, as created and mutated by `MemStorage`.  The record has
no field for a failure cause: `createVideo` initialises exactly the fields
below, and no storage operation ever writes any other field. -/
structure Video where
  id : Nat
  filename : String
  originalName : String
  fileSize : Nat
  mimeType : String
  videoUrl : Option String
  uploadedAt : String
  status : String
  transcription : Option String
  processingProgress : Nat
deriving DecidableEq

/-- Fields supplied at flashcard creation. -/
structure InsertFlashcard where
  videoId : Nat
  question : String
  answer : String
  order : Nat
deriving DecidableEq

/-- A persisted flashcard. -/
structure Flashcard where
  id : Nat
  videoId : Nat
  question : String
  answer : String
  order : Nat
deriving DecidableEq

/-- A study session record. -/
structure StudySession where
  id : Nat
  videoId : Nat
  startedAt : String
  currentCardIndex : Nat
  completedCards : List Nat
  reviewCards : List Nat
  studyTime : Nat
  completedAt : Option String
deriving DecidableEq

/-- The in-memory store: three JS `Map`s (modelled as lists in insertion
order) and the three id counters. -/
structure MemStorage where
  videos : List Video
  flashcards : List Flashcard
  studySessions : List StudySession
  currentVideoId : Nat
  currentFlashcardId : Nat
  currentStudySessionId : Nat
deriving DecidableEq

/-- The store at process start. -/
def emptyStore : MemStorage :=
  { videos := [], flashcards := [], studySessions := []
    currentVideoId := 1, currentFlashcardId := 1, currentStudySessionId := 1 }

/-! ## Storage operations (`MemStorage`) -/

/-- Model of `MemStorage.createVideo`; `now` stands for
`new Date().toISOString()`. -/
def createVideo (s : MemStorage) (iv : InsertVideo) (now : String) :
    MemStorage × Video :=
  let id := s.currentVideoId
  let v : Video :=
    { id := id, filename := iv.filename, originalName := iv.originalName
      fileSize := iv.fileSize, mimeType := iv.mimeType, videoUrl := iv.videoUrl
      uploadedAt := now, status := "uploading", transcription := none
      processingProgress := 0 }
  ({ s with videos := s.videos ++ [v], currentVideoId := id + 1 }, v)

/-- Model of `MemStorage.getVideo`. -/
def getVideo (s : MemStorage) (id : Nat) : Option Video :=
  s.videos.find? (fun v => v.id == id)

/-- Replacement of the video stored under `id` (JS object mutation followed
by `Map.set` of the existing key). -/
def setVideo (l : List Video) (id : Nat) (f : Video → Video) : List Video :=
  l.map fun v => if v.id == id then f v else v

/-- Model of `MemStorage.updateVideoStatus`: when the id is present, set
the status and, when a progress argument was passed, the progress; when
the id is absent, do nothing. -/
def updateVideoStatus (s : MemStorage) (id : Nat) (status : String)
    (progress : Option Nat) : MemStorage :=
  match s.videos.find? (fun v => v.id == id) with
  | none => s
  | some _ =>
      { s with videos := setVideo s.videos id fun v =>
          { v with status := status
                   processingProgress := progress.getD v.processingProgress } }

/-- Model of `MemStorage.updateVideoTranscription`. -/
def updateVideoTranscription (s : MemStorage) (id : Nat) (t : String) :
    MemStorage :=
  match s.videos.find? (fun v => v.id == id) with
  | none => s
  | some _ =>
      { s with videos := setVideo s.videos id fun v =>
          { v with transcription := some t } }

/-- Model of `MemStorage.createFlashcard`. -/
def createFlashcard (s : MemStorage) (f : InsertFlashcard) :
    MemStorage × Flashcard :=
  let id := s.currentFlashcardId
  let card : Flashcard :=
    { id := id, videoId := f.videoId, question := f.question
      answer := f.answer, order := f.order }
  ({ s with flashcards := s.flashcards ++ [card]
            currentFlashcardId := id + 1 }, card)

/-- Stable insertion into a list sorted by `order` (the element goes in
front of the first card whose `order` is not smaller). -/
def insertByOrder (c : Flashcard) : List Flashcard → List Flashcard
  | [] => [c]
  | d :: rest =>
      if c.order ≤ d.order then c :: d :: rest else d :: insertByOrder c rest

/-- Stable sort by `order`, modelling `.sort((a, b) => a.order - b.order)`. -/
def sortByOrder : List Flashcard → List Flashcard
  | [] => []
  | c :: rest => insertByOrder c (sortByOrder rest)

/-- Model of `MemStorage.getFlashcardsByVideoId`: the cards of the video,
sorted ascending by `order`. -/
def getFlashcardsByVideoId (s : MemStorage) (videoId : Nat) : List Flashcard :=
  sortByOrder (s.flashcards.filter fun c => c.videoId == videoId)

/-- Model of `MemStorage.createStudySession`; `now` stands for
`new Date().toISOString()`. -/
def createStudySession (s : MemStorage) (videoId : Nat) (now : String) :
    MemStorage × StudySession :=
  let id := s.currentStudySessionId
  let sess : StudySession :=
    { id := id, videoId := videoId, startedAt := now, currentCardIndex := 0
      completedCards := [], reviewCards := [], studyTime := 0
      completedAt := none }
  ({ s with studySessions := s.studySessions ++ [sess]
            currentStudySessionId := id + 1 }, sess)

/-- Model of `MemStorage.getStudySession`. -/
def getStudySession (s : MemStorage) (id : Nat) : Option StudySession :=
  s.studySessions.find? (fun x => x.id == id)

/-- Model of `MemStorage.getStudySessionByVideoId`: first session of the
video in insertion order (`Array.from(values()).find`). -/
def getStudySessionByVideoId (s : MemStorage) (videoId : Nat) :
    Option StudySession :=
  s.studySessions.find? (fun x => x.videoId == videoId)

/-- A partial session update (`Partial<StudySession>`), restricted to the
fields the client ever sends. -/
structure SessionUpdate where
  currentCardIndex : Option Nat := none
  completedCards : Option (List Nat) := none
  reviewCards : Option (List Nat) := none
  studyTime : Option Nat := none
  completedAt : Option String := none
deriving DecidableEq

/-- The effect of `Object.assign(session, updates)`: every field present in
the patch overwrites the session field. -/
def applySessionUpdate (sess : StudySession) (u : SessionUpdate) : StudySession :=
  { sess with
      currentCardIndex := u.currentCardIndex.getD sess.currentCardIndex
      completedCards := u.completedCards.getD sess.completedCards
      reviewCards := u.reviewCards.getD sess.reviewCards
      studyTime := u.studyTime.getD sess.studyTime
      completedAt := match u.completedAt with
        | some t => some t
        | none => sess.completedAt }

/-- Model of `MemStorage.updateStudySession`: apply the patch when the id
is present, do nothing when it is absent. -/
def updateStudySession (s : MemStorage) (id : Nat) (u : SessionUpdate) :
    MemStorage :=
  match s.studySessions.find? (fun x => x.id == id) with
  | none => s
  | some _ =>
      { s with studySessions := s.studySessions.map fun x =>
          if x.id == id then applySessionUpdate x u else x }

/-! ## Transcript quality gate and generation wrapper (`lib/openai.ts`) -/

/-- A question/answer pair as returned to the pipeline. -/
structure FlashcardPair where
  question : String
  answer : String
deriving DecidableEq

/-- A raw entry of the provider's parsed `flashcards` array; a field is
`none` when the JSON object lacks it. -/
structure RawCard where
  question : Option String
  answer : Option String
deriving DecidableEq

/-- The provider-failure fingerprints the quality gate scans for. -/
def errorFingerprints : List String :=
  ["error", "failed", "api key", "quota", "billing"]

/-- The educational-content keyword vocabulary of the quality gate. -/
def educationalKeywords : List String :=
  ["learn", "understand", "concept", "definition", "explain", "example",
   "important", "key", "topic", "subject"]

/-- Whether the lowercased text contains any of the given keywords. -/
def containsAnyKeyword (s : String) (ks : List String) : Bool :=
  ks.any fun k => jsIncludes s k

/-- The transcript quality gate of `generateFlashcards`: the three
validation checks, in source order, each returning the thrown message. -/
def validateTranscription (t : String) : Option String :=
  if t = "" ∨ t.data.length < 100 then
    some "Transcription is too short to generate meaningful flashcards"
  else if containsAnyKeyword (jsToLower t) errorFingerprints = true ∨
      t.data.length > 50000 then
    some "Cannot generate flashcards from error messages or invalid transcriptions"
  else if containsAnyKeyword (jsToLower t) educationalKeywords = false then
    some "Transcription does not appear to contain educational content suitable for flashcards"
  else
    none

/-- The `card.question || ""` / `card.answer || ""` normalisation. -/
def normalizeRaw (c : RawCard) : FlashcardPair :=
  { question := c.question.getD "", answer := c.answer.getD "" }

/-- The structural-shape filter of `generateFlashcards`: normalise every
entry, then keep the entries whose question and answer are both non-empty
(JS string truthiness). -/
def shapeFilter (cards : List RawCard) : List FlashcardPair :=
  (cards.map normalizeRaw).filter fun c => c.question != "" && c.answer != ""

/-- Model of `generateFlashcards` (validated revision).  `resp` is the
outcome of the provider call: `Except.error e` when the request, the JSON
parse, or the shape check of `result.flashcards` throws (the catch block
rethrows with a wrapped message), `Except.ok cards` when a `flashcards`
array was parsed.  The first component records whether the provider call
was attempted at all. -/
def generateFlashcardsRun (resp : Except String (List RawCard)) (t : String) :
    Bool × Except String (List FlashcardPair) :=
  match validateTranscription t with
  | some err => (false, Except.error err)
  | none =>
      match resp with
      | Except.error e => (true, Except.error ("Failed to generate flashcards: " ++ e))
      | Except.ok cards => (true, Except.ok (shapeFilter cards))

/-! ## The background pipelines (`routes.ts`)

The pipelines are modelled as the sequence of store writes they perform.
Every write is one of the three storage mutations the pipeline calls;
`applyEvents` replays a write sequence against a store, so the reachable
states of a run are exactly the replays of its prefixes. -/

/-- One store write performed by a pipeline run. -/
inductive WriteEvent where
  | statusWrite (status : String) (progress : Option Nat)
  | transcriptWrite (text : String)
  | cardWrite (question answer : String) (ord : Nat)
deriving DecidableEq

/-- The store mutation a write event performs, for the job `videoId`. -/
def applyEvent (videoId : Nat) (s : MemStorage) : WriteEvent → MemStorage
  | WriteEvent.statusWrite st p => updateVideoStatus s videoId st p
  | WriteEvent.transcriptWrite t => updateVideoTranscription s videoId t
  | WriteEvent.cardWrite q a o =>
      (createFlashcard s { videoId := videoId, question := q, answer := a, order := o }).1

/-- Replay of a write sequence against a store. -/
def applyEvents (videoId : Nat) (s : MemStorage) (evs : List WriteEvent) :
    MemStorage :=
  evs.foldl (applyEvent videoId) s

/-- The fallback transcript `processVideo` stores when audio extraction or
transcription throws (the inner catch block). -/
def audioFallbackText : String :=
  "Audio processing failed for this video. This could be due to: 1) FFmpeg not being installed, 2) Invalid audio format, 3) OpenAI API issues. Please check your setup and try again."

/-- The external outcomes one `processVideo` run depends on: the combined
audio-extraction/whisper step (its failure is caught locally and degraded
to the fallback transcript), and the generation-provider call. -/
structure PipelineEnv where
  audio : Except String String
  providerResp : Except String (List RawCard)

/-- The transcript text `processVideo` stores: the whisper result, or the
fallback text when the audio step failed. -/
def processVideoTranscript (env : PipelineEnv) : String :=
  match env.audio with
  | Except.ok t => t
  | Except.error _ => audioFallbackText

/-- The writes of the save loop: one `createFlashcard` per pair, with
`order := i` in list order. -/
def cardEvents (i : Nat) : List FlashcardPair → List WriteEvent
  | [] => []
  | c :: rest => WriteEvent.cardWrite c.question c.answer i :: cardEvents (i + 1) rest

/-- The writes both pipelines perform up to the progress-60 checkpoint:
two processing checkpoints, the transcript write, a third checkpoint. -/
def pipelineHeadEvents (transcriptText : String) : List WriteEvent :=
  [WriteEvent.statusWrite "processing" (some 10),
   WriteEvent.statusWrite "processing" (some 30),
   WriteEvent.transcriptWrite transcriptText,
   WriteEvent.statusWrite "processing" (some 60)]

/-- The writes both pipelines perform after the progress-60 checkpoint,
given the store `sMid` at that point.  The pipeline refetches the video;
a missing record or missing transcript, a `generateFlashcards` throw, or
an empty card list each raise into the outer catch, which writes
`("failed", 0)`.  Otherwise the run writes the progress-80 checkpoint,
saves every card, and marks the job completed. -/
def pipelineTailEvents (resp : Except String (List RawCard))
    (sMid : MemStorage) (videoId : Nat) : List WriteEvent :=
  match getVideo sMid videoId with
  | none => [WriteEvent.statusWrite "failed" (some 0)]
  | some v =>
      match v.transcription with
      | none => [WriteEvent.statusWrite "failed" (some 0)]
      | some tr =>
          match (generateFlashcardsRun resp tr).2 with
          | Except.error _ => [WriteEvent.statusWrite "failed" (some 0)]
          | Except.ok cards =>
              if cards.length == 0 then
                [WriteEvent.statusWrite "failed" (some 0)]
              else
                WriteEvent.statusWrite "processing" (some 80) ::
                  (cardEvents 0 cards ++
                    [WriteEvent.statusWrite "completed" (some 100)])

/-- The write sequence of one `processVideo` run on store `s0`. -/
def processVideoEvents (env : PipelineEnv) (s0 : MemStorage) (videoId : Nat) :
    List WriteEvent :=
  pipelineHeadEvents (processVideoTranscript env) ++
    pipelineTailEvents env.providerResp
      (applyEvents videoId s0 (pipelineHeadEvents (processVideoTranscript env)))
      videoId

/-- The store at the end of one `processVideo` run. -/
def processVideoRun (env : PipelineEnv) (s0 : MemStorage) (videoId : Nat) :
    MemStorage :=
  applyEvents videoId s0 (processVideoEvents env s0 videoId)

/-- The external outcomes one `processVideoFromUrl` run depends on: the
yt-dlp/ffmpeg/whisper chain (caught locally, degraded to a fallback
transcript) and the generation-provider call. -/
structure UrlEnv where
  youtube : Except String String
  providerResp : Except String (List RawCard)

/-- The YouTube test of `processVideoFromUrl`. -/
def urlIsYoutube (url : String) : Bool :=
  jsIncludes url "youtube.com" || jsIncludes url "youtu.be"

/-- The transcript text `processVideoFromUrl` stores: the whisper result
for a YouTube URL, the catch-block fallback when the chain failed, and the
fixed unsupported-source text for every other URL. -/
def processVideoFromUrlTranscript (url : String) (env : UrlEnv) : String :=
  if urlIsYoutube url then
    match env.youtube with
    | Except.ok t => t
    | Except.error _ =>
        "Failed to process video from " ++ url ++ ". This could be due to: 1) Missing yt-dlp or FFmpeg, 2) Video not accessible, 3) Network issues, 4) OpenAI API problems. Please try uploading the video file directly instead."
  else
    "Video URL processing for " ++ url ++ " requires additional setup. Currently, only YouTube URLs are supported with yt-dlp. For other video sources, please upload the video file directly."

/-- The write sequence of one `processVideoFromUrl` run on store `s0`. -/
def processVideoFromUrlEvents (url : String) (env : UrlEnv) (s0 : MemStorage)
    (videoId : Nat) : List WriteEvent :=
  pipelineHeadEvents (processVideoFromUrlTranscript url env) ++
    pipelineTailEvents env.providerResp
      (applyEvents videoId s0
        (pipelineHeadEvents (processVideoFromUrlTranscript url env)))
      videoId

/-! ## Status-trace observations -/

/-- The status writes of a write sequence, in order. -/
def statusWrites : List WriteEvent → List (String × Option Nat)
  | [] => []
  | WriteEvent.statusWrite st p :: rest => (st, p) :: statusWrites rest
  | _ :: rest => statusWrites rest

/-- The edges of the job state machine: staying in place, or one of
uploading to processing, processing to completed, processing to failed. -/
def allowedTransition (a b : String) : Bool :=
  a == b || (a == "uploading" && b == "processing") ||
    (a == "processing" && (b == "completed" || b == "failed"))

/-- Whether every consecutive pair of a status sequence is an allowed
transition. -/
def transitionsOk : List String → Bool
  | a :: b :: rest => allowedTransition a b && transitionsOk (b :: rest)
  | _ => true

/-- Whether a list of naturals is non-decreasing. -/
def nonDecreasing : List Nat → Bool
  | a :: b :: rest => decide (a ≤ b) && nonDecreasing (b :: rest)
  | _ => true

/-- The progress values written while the status being written is
`processing`, in order. -/
def processingProgressValues (ws : List (String × Option Nat)) : List Nat :=
  ws.filterMap fun w => if w.1 == "processing" then w.2 else none

/-! ## The create-study-session route (`registerRoutes`) -/

/-- Model of `POST /api/videos/:id/study-session`: return the existing
session of the video, creating one first when none exists. -/
def createStudySessionRoute (s : MemStorage) (videoId : Nat) (now : String) :
    MemStorage × StudySession :=
  match getStudySessionByVideoId s videoId with
  | some sess => (s, sess)
  | none => createStudySession s videoId now

/-! ## The client study state machine (`study-interface.tsx`) -/

/-- A client-driven interaction with the study interface over its card
deck; `shuffleCards r` carries the value of `Math.floor(Math.random() *
flashcards.length)`, modelled as `r % m`. -/
inductive ClientOp where
  | nextCard : ClientOp
  | prevCard : ClientOp
  | shuffleCards (r : Nat) : ClientOp
deriving DecidableEq

/-- The client component state: the current card index, and whether the
boundary completion (the `completedAt` patch plus `onComplete`) has been
signaled. -/
structure ClientStudyState where
  currentCardIndex : Nat
  completionSignaled : Bool
deriving DecidableEq

/-- One handler invocation over a deck of `m` cards: the next state, and
the `currentCardIndex` value the handler patches to the server session,
when it patches one.  `handleNextCard` advances only strictly below the
last card and otherwise signals completion; `handlePreviousCard` retreats
only strictly above the first card; `handleShuffle` jumps to a random
index below `m`. -/
def clientStep (m : Nat) (st : ClientStudyState) :
    ClientOp → ClientStudyState × Option Nat
  | ClientOp.nextCard =>
      if st.currentCardIndex < m - 1 then
        ({ st with currentCardIndex := st.currentCardIndex + 1 },
          some (st.currentCardIndex + 1))
      else
        ({ st with completionSignaled := true }, none)
  | ClientOp.prevCard =>
      if st.currentCardIndex > 0 then
        ({ st with currentCardIndex := st.currentCardIndex - 1 },
          some (st.currentCardIndex - 1))
      else (st, none)
  | ClientOp.shuffleCards r =>
      ({ st with currentCardIndex := r % m }, some (r % m))

/-- The state after a sequence of handler invocations. -/
def clientRun (m : Nat) (st : ClientStudyState) : List ClientOp → ClientStudyState
  | [] => st
  | op :: rest => clientRun m (clientStep m st op).1 rest

/-- Every `currentCardIndex` value patched to the server session over a
sequence of handler invocations, in order. -/
def clientRunPatches (m : Nat) (st : ClientStudyState) :
    List ClientOp → List Nat
  | [] => []
  | op :: rest =>
      (clientStep m st op).2.toList ++ clientRunPatches m (clientStep m st op).1 rest

/-- The component state at mount: index 0, no completion signaled. -/
def initialClientState : ClientStudyState :=
  { currentCardIndex := 0, completionSignaled := false }

/-! ## Concrete fixtures for witnesses and counterexamples -/

/-- A store holding one freshly created video job (id 1). -/
def sDemo : MemStorage :=
  (createVideo emptyStore
    { filename := "f.mp4", originalName := "f.mp4", fileSize := 0
      mimeType := "video/mp4", videoUrl := none }
    "2024-01-01T00:00:00.000Z").1

/-- A 106-character transcript that passes the quality gate. -/
def tDemo : String :=
  String.mk ("concept example ".data ++ List.replicate 90 'x')

/-- A provider response of two well-formed cards. -/
def demoRaw : List RawCard :=
  [{ question := some "q1", answer := some "a1" },
   { question := some "q2", answer := some "a2" }]

/-- A 3000-character transcript containing "concept" and "example" that
also contains the fingerprint "error". -/
def tBadLong : String :=
  String.mk ("concept example error".data ++ List.replicate 2979 'x')

/-- A 3000-character transcript containing "concept" and "example" and no
provider-failure fingerprint. -/
def tGoodLong : String :=
  String.mk ("concept example ".data ++ List.replicate 2984 'x')

/-- The job record of `sDemo` (what `createVideo` returns for it). -/
def vDemo : Video :=
  { id := 1, filename := "f.mp4", originalName := "f.mp4", fileSize := 0
    mimeType := "video/mp4", videoUrl := none
    uploadedAt := "2024-01-01T00:00:00.000Z", status := "uploading"
    transcription := none, processingProgress := 0 }

/-- The flashcard records the save loop appends for the job `videoId`,
starting at order `i` with ids from `nid`. -/
def mkCards (videoId : Nat) : Nat → Nat → List FlashcardPair → List Flashcard
  | _, _, [] => []
  | i, nid, c :: rest =>
      { id := nid, videoId := videoId, question := c.question
        answer := c.answer, order := i } :: mkCards videoId (i + 1) (nid + 1) rest

/-! ## Lemmas on substring search -/

/-- Prefix testing is prefix decomposition. -/
theorem charListStartsWith_iff (pat : List Char) :
    ∀ l : List Char, charListStartsWith l pat = true ↔ ∃ rest, l = pat ++ rest := by
  induction pat with
  | nil =>
    intro l
    constructor
    · intro _; exact ⟨l, rfl⟩
    · intro _; cases l <;> rfl
  | cons p ps ih =>
    intro l
    cases l with
    | nil =>
      simp [charListStartsWith]
    | cons c cs =>
      rw [show charListStartsWith (c :: cs) (p :: ps) =
            (c == p && charListStartsWith cs ps) from rfl]
      simp only [Bool.and_eq_true, beq_iff_eq, ih]
      constructor
      · rintro ⟨rfl, rest, rfl⟩; exact ⟨rest, rfl⟩
      · rintro ⟨rest, h⟩
        rw [List.cons_append] at h
        injection h with h1 h2
        exact ⟨h1, rest, h2⟩

/-- Substring search is occurrence decomposition. -/
theorem hasSubList_iff (pat : List Char) :
    ∀ l : List Char, hasSubList pat l = true ↔ ∃ l1 l2, l = l1 ++ (pat ++ l2) := by
  intro l
  induction l with
  | nil =>
    rw [show hasSubList pat [] = pat.isEmpty from rfl]
    constructor
    · intro h
      rcases List.isEmpty_iff.mp h with rfl
      exact ⟨[], [], rfl⟩
    · rintro ⟨l1, l2, h⟩
      rcases List.append_eq_nil.mp h.symm with ⟨rfl, h2⟩
      rcases List.append_eq_nil.mp h2 with ⟨rfl, rfl⟩
      rfl
  | cons c cs ih =>
    rw [show hasSubList pat (c :: cs) =
          (charListStartsWith (c :: cs) pat || hasSubList pat cs) from rfl]
    simp only [Bool.or_eq_true, charListStartsWith_iff, ih]
    constructor
    · rintro (⟨rest, h⟩ | ⟨l1, l2, rfl⟩)
      · exact ⟨[], rest, by simpa using h⟩
      · exact ⟨c :: l1, l2, rfl⟩
    · rintro ⟨l1, l2, h⟩
      cases l1 with
      | nil => exact Or.inl ⟨l2, by simpa using h⟩
      | cons a l1 =>
        rw [List.cons_append] at h
        injection h with h1 h2
        exact Or.inr ⟨l1, l2, h2⟩

/-- A character of a found pattern is a character of the text. -/
theorem mem_of_hasSubList (pat l : List Char) (c : Char) (hc : c ∈ pat)
    (h : hasSubList pat l = true) : c ∈ l := by
  rcases (hasSubList_iff pat l).mp h with ⟨l1, l2, rfl⟩
  simp [hc]

/-- A pattern with a character the text lacks is never found. -/
theorem hasSubList_eq_false_of_missing (pat l : List Char) (c : Char)
    (hc : c ∈ pat) (hl : c ∉ l) : hasSubList pat l = false := by
  cases hb : hasSubList pat l with
  | false => rfl
  | true => exact absurd (mem_of_hasSubList pat l c hc hb) hl

/-- Substring occurrence is preserved by mapping a function over both
pattern and text. -/
theorem hasSubList_map (f : Char → Char) (pat l : List Char)
    (h : hasSubList pat l = true) :
    hasSubList (pat.map f) (l.map f) = true := by
  rcases (hasSubList_iff pat l).mp h with ⟨l1, l2, rfl⟩
  exact (hasSubList_iff _ _).mpr ⟨l1.map f, l2.map f, by simp⟩

/-! ## Lemmas on the store operations -/

/-- Looking up the updated id after an in-place replacement finds the
replaced record, provided the replacement preserves the id. -/
theorem find?_setVideo (id : Nat) (f : Video → Video)
    (hf : ∀ v, (f v).id = v.id) :
    ∀ l : List Video,
      (setVideo l id f).find? (fun v => v.id == id) =
        (l.find? (fun v => v.id == id)).map f := by
  intro l
  induction l with
  | nil => rfl
  | cons v rest ih =>
    by_cases hv : v.id = id
    · rw [show setVideo (v :: rest) id f =
            (if v.id == id then f v else v) :: setVideo rest id f from rfl]
      rw [if_pos (beq_iff_eq.mpr hv)]
      rw [List.find?_cons_of_pos _ (by simp [hf, hv]),
          List.find?_cons_of_pos _ (by simp [hv])]
      rfl
    · rw [show setVideo (v :: rest) id f =
            (if v.id == id then f v else v) :: setVideo rest id f from rfl]
      rw [if_neg (by simp [hv])]
      rw [List.find?_cons_of_neg _ (by simp [hv]),
          List.find?_cons_of_neg _ (by simp [hv])]
      exact ih

/-- A status update of a present id rewrites exactly the status and (when
passed) the progress of its record. -/
theorem getVideo_updateVideoStatus (s : MemStorage) (id : Nat) (st : String)
    (p : Option Nat) (v : Video) (hv : getVideo s id = some v) :
    getVideo (updateVideoStatus s id st p) id =
      some { v with status := st
                    processingProgress := p.getD v.processingProgress } := by
  rw [getVideo] at hv
  unfold updateVideoStatus
  rw [hv]
  show (setVideo s.videos id _).find? (fun v => v.id == id) = _
  rw [find?_setVideo id
        (fun v => { v with status := st
                           processingProgress := p.getD v.processingProgress })
        (fun _ => rfl) s.videos, hv]
  rfl

/-- A transcription update of a present id rewrites exactly the
transcription of its record. -/
theorem getVideo_updateVideoTranscription (s : MemStorage) (id : Nat)
    (t : String) (v : Video) (hv : getVideo s id = some v) :
    getVideo (updateVideoTranscription s id t) id =
      some { v with transcription := some t } := by
  rw [getVideo] at hv
  unfold updateVideoTranscription
  rw [hv]
  show (setVideo s.videos id _).find? (fun v => v.id == id) = _
  rw [find?_setVideo id (fun v => { v with transcription := some t })
        (fun _ => rfl) s.videos, hv]
  rfl

/-- Status updates leave the flashcards untouched. -/
theorem flashcards_updateVideoStatus (s : MemStorage) (id : Nat) (st : String)
    (p : Option Nat) : (updateVideoStatus s id st p).flashcards = s.flashcards := by
  unfold updateVideoStatus
  cases s.videos.find? (fun v => v.id == id) <;> rfl

/-- Transcription updates leave the flashcards untouched. -/
theorem flashcards_updateVideoTranscription (s : MemStorage) (id : Nat)
    (t : String) : (updateVideoTranscription s id t).flashcards = s.flashcards := by
  unfold updateVideoTranscription
  cases s.videos.find? (fun v => v.id == id) <;> rfl

/-- Replaying a concatenation replays the parts in order. -/
theorem applyEvents_append (id : Nat) (s : MemStorage) (a b : List WriteEvent) :
    applyEvents id s (a ++ b) = applyEvents id (applyEvents id s a) b := by
  simp [applyEvents]

/-- Replaying a cons is one write then the rest. -/
theorem applyEvents_cons (id : Nat) (s : MemStorage) (e : WriteEvent)
    (evs : List WriteEvent) :
    applyEvents id s (e :: evs) = applyEvents id (applyEvent id s e) evs := rfl

/-- After the head writes, the job record carries status processing,
progress 60, and the stored transcript. -/
theorem applyEvents_head_getVideo (txt : String) (s0 : MemStorage) (id : Nat)
    (v : Video) (hv : getVideo s0 id = some v) :
    getVideo (applyEvents id s0 (pipelineHeadEvents txt)) id =
      some { v with status := "processing", transcription := some txt
                    processingProgress := 60 } := by
  have h1 := getVideo_updateVideoStatus s0 id "processing" (some 10) v hv
  have h2 := getVideo_updateVideoStatus _ id "processing" (some 30) _ h1
  have h3 := getVideo_updateVideoTranscription _ id txt _ h2
  have h4 := getVideo_updateVideoStatus _ id "processing" (some 60) _ h3
  exact h4

/-- The head writes leave the flashcards untouched. -/
theorem applyEvents_head_flashcards (txt : String) (s0 : MemStorage) (id : Nat) :
    (applyEvents id s0 (pipelineHeadEvents txt)).flashcards = s0.flashcards := by
  show (updateVideoStatus (updateVideoTranscription (updateVideoStatus
      (updateVideoStatus s0 id "processing" (some 10)) id "processing" (some 30))
      id txt) id "processing" (some 60)).flashcards = s0.flashcards
  rw [flashcards_updateVideoStatus, flashcards_updateVideoTranscription,
      flashcards_updateVideoStatus, flashcards_updateVideoStatus]

/-- Replaying the save loop appends exactly the `mkCards` records and bumps
the flashcard id counter. -/
theorem applyEvents_cardEvents (id : Nat) (cs : List FlashcardPair) :
    ∀ (i : Nat) (s : MemStorage),
      applyEvents id s (cardEvents i cs) =
        { s with flashcards := s.flashcards ++ mkCards id i s.currentFlashcardId cs
                 currentFlashcardId := s.currentFlashcardId + cs.length } := by
  induction cs with
  | nil =>
    intro i s
    show s = _
    simp [mkCards]
  | cons c rest ih =>
    intro i s
    rw [show cardEvents i (c :: rest) =
          WriteEvent.cardWrite c.question c.answer i :: cardEvents (i + 1) rest from rfl]
    rw [applyEvents_cons]
    rw [show applyEvent id s (WriteEvent.cardWrite c.question c.answer i) =
          { s with
              flashcards := s.flashcards ++
                [{ id := s.currentFlashcardId, videoId := id,
                   question := c.question, answer := c.answer, order := i }],
              currentFlashcardId := s.currentFlashcardId + 1 } from rfl]
    rw [ih (i + 1)]
    simp [mkCards, Nat.add_comm, Nat.add_assoc, Nat.add_left_comm]

/-- Every saved card of the batch carries the job id, so the by-video
filter keeps the whole batch. -/
theorem filter_mkCards (id : Nat) (cs : List FlashcardPair) :
    ∀ i nid, (mkCards id i nid cs).filter (fun c => c.videoId == id) =
      mkCards id i nid cs := by
  induction cs with
  | nil => intro i nid; rfl
  | cons c rest ih => intro i nid; simp [mkCards, List.filter_cons, ih]

/-- The orders of a saved batch starting at `i` are `i, i+1, ...`. -/
theorem mkCards_map_order (id : Nat) (cs : List FlashcardPair) :
    ∀ i nid, (mkCards id i nid cs).map (fun c => c.order) =
      List.range' i cs.length := by
  induction cs with
  | nil => intro i nid; rfl
  | cons c rest ih =>
    intro i nid
    rw [show (c :: rest).length = rest.length + 1 from rfl,
        show List.range' i (rest.length + 1) = i :: List.range' (i + 1) rest.length from rfl]
    simp [mkCards, ih]

/-- The question/answer projection of a saved batch is the batch input. -/
theorem mkCards_map_qa (id : Nat) (cs : List FlashcardPair) :
    ∀ i nid, (mkCards id i nid cs).map (fun c => (c.question, c.answer)) =
      cs.map (fun c => (c.question, c.answer)) := by
  induction cs with
  | nil => intro i nid; rfl
  | cons c rest ih => intro i nid; simp [mkCards, ih]

/-- A saved batch has one card per input pair. -/
theorem mkCards_length (id : Nat) (cs : List FlashcardPair) :
    ∀ i nid, (mkCards id i nid cs).length = cs.length := by
  induction cs with
  | nil => intro i nid; rfl
  | cons c rest ih => intro i nid; simp [mkCards, ih]

/-- A saved batch is already sorted by order, so the sort returns it
unchanged. -/
theorem sortByOrder_mkCards (id : Nat) (cs : List FlashcardPair) :
    ∀ i nid, sortByOrder (mkCards id i nid cs) = mkCards id i nid cs := by
  induction cs with
  | nil => intro i nid; rfl
  | cons c rest ih =>
    intro i nid
    rw [show sortByOrder (mkCards id i nid (c :: rest)) =
          insertByOrder
            { id := nid, videoId := id, question := c.question,
              answer := c.answer, order := i }
            (sortByOrder (mkCards id (i + 1) (nid + 1) rest)) from rfl]
    rw [ih (i + 1)]
    cases rest with
    | nil => rfl
    | cons d rest2 => simp [mkCards, insertByOrder, Nat.le_succ]

/-- Status observations distribute over concatenation. -/
theorem statusWrites_append (a b : List WriteEvent) :
    statusWrites (a ++ b) = statusWrites a ++ statusWrites b := by
  induction a with
  | nil => rfl
  | cons e rest ih => cases e <;> simp [statusWrites, ih]

/-- The save loop performs no status writes. -/
theorem statusWrites_cardEvents (cs : List FlashcardPair) :
    ∀ i, statusWrites (cardEvents i cs) = [] := by
  induction cs with
  | nil => intro i; rfl
  | cons c rest ih => intro i; simp [cardEvents, statusWrites, ih]

/-- Replaying a singleton is one write. -/
theorem applyEvents_singleton (id : Nat) (s : MemStorage) (e : WriteEvent) :
    applyEvents id s [e] = applyEvent id s e := rfl

/-- The flashcards after the save loop: the previous cards followed by the
batch. -/
theorem flashcards_applyEvents_cardEvents (id : Nat) (s : MemStorage)
    (cards : List FlashcardPair) (i : Nat) :
    (applyEvents id s (cardEvents i cards)).flashcards =
      s.flashcards ++ mkCards id i s.currentFlashcardId cards := by
  rw [applyEvents_cardEvents]

/-- The save loop leaves the videos untouched. -/
theorem videos_applyEvents_cardEvents (id : Nat) (s : MemStorage)
    (cards : List FlashcardPair) (i : Nat) :
    (applyEvents id s (cardEvents i cards)).videos = s.videos := by
  rw [applyEvents_cardEvents]

/-- Every tail of a pipeline run either writes the single failed status or
writes the progress-80 checkpoint, a non-empty card batch, and the
completed status. -/
theorem pipelineTailEvents_cases (resp : Except String (List RawCard))
    (sMid : MemStorage) (id : Nat) :
    pipelineTailEvents resp sMid id = [WriteEvent.statusWrite "failed" (some 0)] ∨
    ∃ cards : List FlashcardPair, cards ≠ [] ∧
      pipelineTailEvents resp sMid id =
        WriteEvent.statusWrite "processing" (some 80) ::
          (cardEvents 0 cards ++ [WriteEvent.statusWrite "completed" (some 100)]) := by
  unfold pipelineTailEvents
  split
  · exact Or.inl rfl
  · split
    · exact Or.inl rfl
    · split
      · exact Or.inl rfl
      · split
        · exact Or.inl rfl
        · rename_i hlen
          refine Or.inr ⟨_, ?_, rfl⟩
          intro hnil
          subst hnil
          exact hlen rfl

/-- The tail of a successful run: video present with a transcript, the
generation call returns a non-empty card list. -/
theorem pipelineTailEvents_success (resp : Except String (List RawCard))
    (sMid : MemStorage) (id : Nat) (v : Video) (tr : String)
    (cards : List FlashcardPair)
    (hv : getVideo sMid id = some v) (htr : v.transcription = some tr)
    (hgen : (generateFlashcardsRun resp tr).2 = Except.ok cards)
    (hne : cards ≠ []) :
    pipelineTailEvents resp sMid id =
      WriteEvent.statusWrite "processing" (some 80) ::
        (cardEvents 0 cards ++ [WriteEvent.statusWrite "completed" (some 100)]) := by
  have hlen : (cards.length == 0) = false := by
    cases cards with
    | nil => exact absurd rfl hne
    | cons a l => rfl
  unfold pipelineTailEvents
  rw [hv]
  simp only [htr, hgen, hlen]
  rfl

/-- The tail of a run whose generation stage throws or returns an empty
card list: a single failed status write. -/
theorem pipelineTailEvents_genFail (resp : Except String (List RawCard))
    (sMid : MemStorage) (id : Nat) (v : Video) (tr : String)
    (hv : getVideo sMid id = some v) (htr : v.transcription = some tr)
    (hgen : ∀ cards, (generateFlashcardsRun resp tr).2 = Except.ok cards → cards = []) :
    pipelineTailEvents resp sMid id = [WriteEvent.statusWrite "failed" (some 0)] := by
  unfold pipelineTailEvents
  rw [hv]
  simp only [htr]
  cases hg : (generateFlashcardsRun resp tr).2 with
  | error e => rfl
  | ok cards =>
    have : cards = [] := hgen cards hg
    subst this
    rfl

/-- One `processVideo` run replays its head then its tail. -/
theorem processVideoRun_decompose (env : PipelineEnv) (s0 : MemStorage)
    (id : Nat) :
    processVideoRun env s0 id =
      applyEvents id
        (applyEvents id s0 (pipelineHeadEvents (processVideoTranscript env)))
        (pipelineTailEvents env.providerResp
          (applyEvents id s0 (pipelineHeadEvents (processVideoTranscript env)))
          id) := by
  rw [processVideoRun, processVideoEvents, applyEvents_append]

/-- The cards a successful run persists for a clean job: exactly the
`mkCards` batch of the generation result (for some run of flashcard ids). -/
theorem processVideoRun_flashcards (env : PipelineEnv) (s0 : MemStorage)
    (id : Nat) (v : Video) (cards : List FlashcardPair)
    (hv : getVideo s0 id = some v)
    (hclean : s0.flashcards.filter (fun c => c.videoId == id) = [])
    (hgen : (generateFlashcardsRun env.providerResp (processVideoTranscript env)).2 =
      Except.ok cards)
    (hne : cards ≠ []) :
    ∃ nid, getFlashcardsByVideoId (processVideoRun env s0 id) id =
      mkCards id 0 nid cards := by
  have hvM := applyEvents_head_getVideo (processVideoTranscript env) s0 id v hv
  have htail := pipelineTailEvents_success env.providerResp
    (applyEvents id s0 (pipelineHeadEvents (processVideoTranscript env))) id
    _ _ cards hvM rfl hgen hne
  refine ⟨(updateVideoStatus
      (applyEvents id s0 (pipelineHeadEvents (processVideoTranscript env)))
      id "processing" (some 80)).currentFlashcardId, ?_⟩
  rw [processVideoRun_decompose, htail, applyEvents_cons, applyEvents_append,
      applyEvents_singleton]
  simp only [applyEvent]
  rw [getFlashcardsByVideoId, flashcards_updateVideoStatus,
      flashcards_applyEvents_cardEvents, flashcards_updateVideoStatus,
      applyEvents_head_flashcards, List.filter_append, hclean, filter_mkCards,
      List.nil_append, sortByOrder_mkCards]

/-- An inserted element either is the new card or was already present. -/
theorem mem_insertByOrder (c x : Flashcard) :
    ∀ l : List Flashcard, x ∈ insertByOrder c l → x = c ∨ x ∈ l := by
  intro l
  induction l with
  | nil =>
    intro h
    rw [show insertByOrder c [] = [c] from rfl] at h
    exact Or.inl (List.mem_singleton.mp h)
  | cons d rest ih =>
    intro h
    rw [show insertByOrder c (d :: rest) =
          if c.order ≤ d.order then c :: d :: rest else d :: insertByOrder c rest
        from rfl] at h
    by_cases hc : c.order ≤ d.order
    · rw [if_pos hc] at h
      rcases List.mem_cons.mp h with h1 | h2
      · exact Or.inl h1
      · exact Or.inr h2
    · rw [if_neg hc] at h
      rcases List.mem_cons.mp h with h1 | h2
      · exact Or.inr (List.mem_cons.mpr (Or.inl h1))
      · rcases ih h2 with h3 | h4
        · exact Or.inl h3
        · exact Or.inr (List.mem_cons.mpr (Or.inr h4))

/-- Insertion preserves sortedness by order. -/
theorem pairwise_insertByOrder (c : Flashcard) :
    ∀ l : List Flashcard, l.Pairwise (fun a b => a.order ≤ b.order) →
      (insertByOrder c l).Pairwise (fun a b => a.order ≤ b.order) := by
  intro l
  induction l with
  | nil =>
    intro _
    rw [show insertByOrder c [] = [c] from rfl]
    exact List.pairwise_singleton _ _
  | cons d rest ih =>
    intro hp
    rcases List.pairwise_cons.mp hp with ⟨hd, hrest⟩
    rw [show insertByOrder c (d :: rest) =
          if c.order ≤ d.order then c :: d :: rest else d :: insertByOrder c rest
        from rfl]
    by_cases hc : c.order ≤ d.order
    · rw [if_pos hc]
      refine List.pairwise_cons.mpr ⟨?_, hp⟩
      intro x hx
      rcases List.mem_cons.mp hx with rfl | hx2
      · exact hc
      · exact le_trans hc (hd x hx2)
    · rw [if_neg hc]
      refine List.pairwise_cons.mpr ⟨?_, ih hrest⟩
      intro x hx
      rcases mem_insertByOrder c x rest hx with rfl | hx2
      · omega
      · exact hd x hx2

/-- The sort returns a list sorted ascending by order. -/
theorem pairwise_sortByOrder : ∀ l : List Flashcard,
    (sortByOrder l).Pairwise (fun a b => a.order ≤ b.order) := by
  intro l
  induction l with
  | nil => exact List.Pairwise.nil
  | cons c rest ih => exact pairwise_insertByOrder c _ ih

/-- Searching a concatenation whose first part has no match searches the
second part. -/
theorem find?_append_first_none {α : Type} (p : α → Bool) (l2 : List α) :
    ∀ l1 : List α, l1.find? p = none → (l1 ++ l2).find? p = l2.find? p := by
  intro l1
  induction l1 with
  | nil => intro _; rfl
  | cons a rest ih =>
    intro h
    cases hpa : p a with
    | true =>
      rw [List.find?_cons_of_pos _ hpa] at h
      exact absurd h (by simp)
    | false =>
      rw [List.find?_cons_of_neg _ (by simp [hpa])] at h
      rw [List.cons_append, List.find?_cons_of_neg _ (by simp [hpa])]
      exact ih h

/-! ## Lemmas on the client study state machine -/

/-- One handler invocation keeps the index below the deck size. -/
theorem clientStep_index_lt (m : Nat) (hm : 0 < m) (st : ClientStudyState)
    (hst : st.currentCardIndex < m) (op : ClientOp) :
    (clientStep m st op).1.currentCardIndex < m := by
  cases op with
  | nextCard =>
    by_cases h : st.currentCardIndex < m - 1 <;>
      simp [clientStep, h] <;> omega
  | prevCard =>
    by_cases h : st.currentCardIndex > 0 <;>
      simp [clientStep, h] <;> omega
  | shuffleCards r =>
    simpa [clientStep] using Nat.mod_lt r hm

/-- One handler invocation only ever patches an index below the deck
size. -/
theorem clientStep_patch_lt (m : Nat) (hm : 0 < m) (st : ClientStudyState)
    (hst : st.currentCardIndex < m) (op : ClientOp) (x : Nat)
    (hx : (clientStep m st op).2 = some x) : x < m := by
  cases op with
  | nextCard =>
    by_cases h : st.currentCardIndex < m - 1 <;>
      simp [clientStep, h] at hx
    omega
  | prevCard =>
    by_cases h : st.currentCardIndex > 0 <;>
      simp [clientStep, h] at hx
    omega
  | shuffleCards r =>
    simp [clientStep] at hx
    subst hx
    exact Nat.mod_lt r hm

/-- The index stays below the deck size over any run of handler
invocations. -/
theorem clientRun_index_lt (m : Nat) (hm : 0 < m) (ops : List ClientOp) :
    ∀ st : ClientStudyState, st.currentCardIndex < m →
      (clientRun m st ops).currentCardIndex < m := by
  induction ops with
  | nil => intro st h; exact h
  | cons op rest ih =>
    intro st h
    exact ih _ (clientStep_index_lt m hm st h op)

/-- Every index patched over a run of handler invocations is below the
deck size. -/
theorem clientRunPatches_lt (m : Nat) (hm : 0 < m) (ops : List ClientOp) :
    ∀ st : ClientStudyState, st.currentCardIndex < m →
      ∀ x ∈ clientRunPatches m st ops, x < m := by
  induction ops with
  | nil => intro st _ x hx; simp [clientRunPatches] at hx
  | cons op rest ih =>
    intro st h x hx
    rw [show clientRunPatches m st (op :: rest) =
          (clientStep m st op).2.toList ++
            clientRunPatches m (clientStep m st op).1 rest from rfl] at hx
    rcases List.mem_append.mp hx with h1 | h2
    · cases hp : (clientStep m st op).2 with
      | none => rw [hp] at h1; simp at h1
      | some y =>
        rw [hp] at h1
        simp at h1
        subst h1
        exact clientStep_patch_lt m hm st h op x hp
    · exact ih _ (clientStep_index_lt m hm st h op) x h2

/-- Advancing `n` times from a state below the boundary: the index saturates
at `m - 1` and completion is signaled exactly when the advances run past
the boundary. -/
theorem clientRun_replicate_next (m : Nat) (hm : 0 < m) :
    ∀ (n : Nat) (st : ClientStudyState), st.currentCardIndex ≤ m - 1 →
      clientRun m st (List.replicate n ClientOp.nextCard) =
        { currentCardIndex := min (st.currentCardIndex + n) (m - 1)
          completionSignaled :=
            st.completionSignaled || decide (m ≤ st.currentCardIndex + n) } := by
  intro n
  induction n with
  | zero =>
    intro st hst
    rw [List.replicate_zero, show clientRun m st [] = st from rfl]
    have h1 : min (st.currentCardIndex + 0) (m - 1) = st.currentCardIndex := by
      omega
    have h2 : decide (m ≤ st.currentCardIndex + 0) = false := by
      rw [decide_eq_false_iff_not]
      omega
    rw [h1, h2, Bool.or_false]
  | succ n ih =>
    intro st hst
    rw [List.replicate_succ, show clientRun m st (ClientOp.nextCard :: List.replicate n ClientOp.nextCard) =
          clientRun m (clientStep m st ClientOp.nextCard).1 (List.replicate n ClientOp.nextCard) from rfl]
    by_cases h : st.currentCardIndex < m - 1
    · rw [show (clientStep m st ClientOp.nextCard).1 =
            { st with currentCardIndex := st.currentCardIndex + 1 } from by
          simp [clientStep, h]]
      rw [ih _ (by show st.currentCardIndex + 1 ≤ m - 1; omega)]
      have h1 : st.currentCardIndex + 1 + n = st.currentCardIndex + (n + 1) := by
        omega
      rw [show ({ st with currentCardIndex := st.currentCardIndex + 1 } :
            ClientStudyState).currentCardIndex = st.currentCardIndex + 1 from rfl,
          show ({ st with currentCardIndex := st.currentCardIndex + 1 } :
            ClientStudyState).completionSignaled = st.completionSignaled from rfl,
          h1]
    · rw [show (clientStep m st ClientOp.nextCard).1 =
            { st with completionSignaled := true } from by simp [clientStep, h]]
      rw [ih _ (by show st.currentCardIndex ≤ m - 1; exact hst)]
      have h1 : min (st.currentCardIndex + n) (m - 1) =
          min (st.currentCardIndex + (n + 1)) (m - 1) := by
        omega
      have h2 : decide (m ≤ st.currentCardIndex + (n + 1)) = true := by
        rw [decide_eq_true_iff]
        omega
      rw [show ({ st with completionSignaled := true } :
            ClientStudyState).currentCardIndex = st.currentCardIndex from rfl,
          show ({ st with completionSignaled := true } :
            ClientStudyState).completionSignaled = true from rfl,
          h1, h2, Bool.true_or, Bool.or_true]

/-! ## Helper facts on the fixtures -/

/-- The demo transcript passes the quality gate. -/
theorem validate_tDemo : validateTranscription tDemo = none := by decide

/-! ## The claims -/

/-- C6: for every transcript strictly below 100 characters, the quality
gate of `generateFlashcards` rejects with the too-short message and the
generation provider is never called, whatever it would have answered. -/
theorem spec_c6 (t : String) (resp : Except String (List RawCard))
    (h : t.data.length < 100) :
    generateFlashcardsRun resp t =
      (false,
        Except.error "Transcription is too short to generate meaningful flashcards") := by
  have hval : validateTranscription t =
      some "Transcription is too short to generate meaningful flashcards" := by
    unfold validateTranscription
    rw [if_pos (Or.inr h)]
  unfold generateFlashcardsRun
  rw [hval]

/-- Witness for C6: a transcript of length 40 is rejected without a
provider call. -/
theorem spec_c6_witness :
    (String.mk (List.replicate 40 'a')).data.length < 100 ∧
    generateFlashcardsRun (Except.ok demoRaw) (String.mk (List.replicate 40 'a')) =
      (false,
        Except.error "Transcription is too short to generate meaningful flashcards") :=
  ⟨by decide, spec_c6 (String.mk (List.replicate 40 'a')) (Except.ok demoRaw) (by decide)⟩

/-- C10: every keyed update on an id absent from the store returns
normally and leaves the whole store unchanged. -/
theorem spec_c10 (s : MemStorage) (id : Nat) (st : String) (p : Option Nat)
    (tx : String) (u : SessionUpdate)
    (hv : getVideo s id = none) (hs : getStudySession s id = none) :
    updateVideoStatus s id st p = s ∧ updateVideoTranscription s id tx = s ∧
    updateStudySession s id u = s := by
  rw [getVideo] at hv
  rw [getStudySession] at hs
  unfold updateVideoStatus updateVideoTranscription updateStudySession
  rw [hv, hs]
  exact ⟨rfl, rfl, rfl⟩

/-- Witness for C10: the empty store has no id 1 and every update on it is
the identity. -/
theorem spec_c10_witness :
    getVideo emptyStore 1 = none ∧ getStudySession emptyStore 1 = none ∧
    (updateVideoStatus emptyStore 1 "failed" (some 0) = emptyStore ∧
     updateVideoTranscription emptyStore 1 "text" = emptyStore ∧
     updateStudySession emptyStore 1 {} = emptyStore) :=
  ⟨rfl, rfl, spec_c10 emptyStore 1 "failed" (some 0) "text" {} rfl rfl⟩

/-- C8: the create-study-session route is idempotent per job, and preserves
at-most-one-session-per-job. -/
theorem spec_c8 (s : MemStorage) (v : Nat) (n1 n2 : String)
    (hcount : s.studySessions.countP (fun x => x.videoId == v) ≤ 1) :
    (createStudySessionRoute (createStudySessionRoute s v n1).1 v n2).2 =
        (createStudySessionRoute s v n1).2 ∧
    (createStudySessionRoute (createStudySessionRoute s v n1).1 v n2).1 =
        (createStudySessionRoute s v n1).1 ∧
    (createStudySessionRoute s v n1).1.studySessions.countP
        (fun x => x.videoId == v) ≤ 1 := by
  cases h : getStudySessionByVideoId s v with
  | some sess =>
    have h1 : createStudySessionRoute s v n1 = (s, sess) := by
      unfold createStudySessionRoute
      rw [h]
    have h2 : createStudySessionRoute s v n2 = (s, sess) := by
      unfold createStudySessionRoute
      rw [h]
    rw [h1, h2]
    exact ⟨rfl, rfl, hcount⟩
  | none =>
    rw [getStudySessionByVideoId] at h
    have h1 : createStudySessionRoute s v n1 = createStudySession s v n1 := by
      unfold createStudySessionRoute getStudySessionByVideoId
      rw [h]
    have hfind : getStudySessionByVideoId (createStudySession s v n1).1 v =
        some { id := s.currentStudySessionId, videoId := v, startedAt := n1,
               currentCardIndex := 0, completedCards := [], reviewCards := [],
               studyTime := 0, completedAt := none } := by
      show List.find? (fun x => x.videoId == v)
          (s.studySessions ++
            [{ id := s.currentStudySessionId, videoId := v, startedAt := n1,
               currentCardIndex := 0, completedCards := [], reviewCards := [],
               studyTime := 0, completedAt := none }]) = _
      rw [find?_append_first_none _ _ _ h]
      exact List.find?_cons_of_pos _ (by simp)
    have h2 : createStudySessionRoute (createStudySession s v n1).1 v n2 =
        ((createStudySession s v n1).1, (createStudySession s v n1).2) := by
      unfold createStudySessionRoute
      rw [hfind]
      rfl
    rw [h1, h2]
    refine ⟨rfl, rfl, ?_⟩
    show (s.studySessions ++
        [({ id := s.currentStudySessionId, videoId := v, startedAt := n1,
            currentCardIndex := 0, completedCards := [], reviewCards := [],
            studyTime := 0, completedAt := none } : StudySession)]).countP
        (fun x => x.videoId == v) ≤ 1
    rw [List.countP_append]
    have hz : s.studySessions.countP (fun x => x.videoId == v) = 0 := by
      rw [List.countP_eq_zero]
      intro a ha
      have h3 := List.find?_eq_none.mp h a ha
      simpa using h3
    rw [hz]
    simp

/-- Witness for C8: two create calls on the empty store return the same
session and leave one session in place. -/
theorem spec_c8_witness :
    emptyStore.studySessions.countP (fun x => x.videoId == 1) ≤ 1 ∧
    ((createStudySessionRoute (createStudySessionRoute emptyStore 1 "t1").1 1 "t2").2 =
        (createStudySessionRoute emptyStore 1 "t1").2 ∧
     (createStudySessionRoute (createStudySessionRoute emptyStore 1 "t1").1 1 "t2").1 =
        (createStudySessionRoute emptyStore 1 "t1").1 ∧
     (createStudySessionRoute emptyStore 1 "t1").1.studySessions.countP
        (fun x => x.videoId == 1) ≤ 1) :=
  ⟨by decide, spec_c8 emptyStore 1 "t1" "t2" (by decide)⟩

/-- C9: over a deck of `m` cards (`m > 0`), the client card index stays in
`[0, m)` under every sequence of handler invocations, every index value
patched to the server session is in `[0, m)`, and after `n > m` advance
invocations the index is exactly `m - 1` with completion signaled at the
boundary. -/
theorem spec_c9 (m n : Nat) (ops : List ClientOp) (hm : 0 < m) (hn : m < n) :
    (clientRun m initialClientState ops).currentCardIndex < m ∧
    (∀ x ∈ clientRunPatches m initialClientState ops, x < m) ∧
    (clientRun m initialClientState
        (List.replicate n ClientOp.nextCard)).currentCardIndex = m - 1 ∧
    (clientRun m initialClientState
        (List.replicate n ClientOp.nextCard)).completionSignaled = true := by
  have hrep := clientRun_replicate_next m hm n initialClientState
    (by show (0 : Nat) ≤ m - 1; omega)
  refine ⟨clientRun_index_lt m hm ops initialClientState hm,
          clientRunPatches_lt m hm ops initialClientState hm, ?_, ?_⟩
  · rw [hrep]
    show min (0 + n) (m - 1) = m - 1
    omega
  · rw [hrep]
    show (false || decide (m ≤ 0 + n)) = true
    rw [Bool.false_or, decide_eq_true_eq]
    omega

/-- Witness for C9: a deck of 3 cards, a mixed run of 5 interactions, and
5 advances past the boundary. -/
theorem spec_c9_witness :
    0 < 3 ∧ 3 < 5 ∧
    ((clientRun 3 initialClientState
        [ClientOp.nextCard, ClientOp.nextCard, ClientOp.prevCard,
         ClientOp.shuffleCards 7, ClientOp.nextCard]).currentCardIndex < 3 ∧
     (∀ x ∈ clientRunPatches 3 initialClientState
        [ClientOp.nextCard, ClientOp.nextCard, ClientOp.prevCard,
         ClientOp.shuffleCards 7, ClientOp.nextCard], x < 3) ∧
     (clientRun 3 initialClientState
        (List.replicate 5 ClientOp.nextCard)).currentCardIndex = 3 - 1 ∧
     (clientRun 3 initialClientState
        (List.replicate 5 ClientOp.nextCard)).completionSignaled = true) :=
  ⟨by decide, by decide,
    spec_c9 3 5
      [ClientOp.nextCard, ClientOp.nextCard, ClientOp.prevCard,
       ClientOp.shuffleCards 7, ClientOp.nextCard] (by decide) (by decide)⟩

/-- C1: over every run of `processVideo` and of `processVideoFromUrl`, on
any store and job id and under any collaborator outcomes, the status
writes prefixed with the creation status follow only the edges uploading
to processing to completed or failed, and the progress values written
while the status is processing are non-decreasing (the checkpoints 10,
30, 60, 80 and, on success, 100). -/
theorem spec_c1 (env : PipelineEnv) (s0 : MemStorage) (id : Nat)
    (url : String) (uenv : UrlEnv) (s1 : MemStorage) (id1 : Nat) :
    (transitionsOk ("uploading" ::
        (statusWrites (processVideoEvents env s0 id)).map Prod.fst) = true ∧
     nonDecreasing (processingProgressValues
        (statusWrites (processVideoEvents env s0 id))) = true) ∧
    (transitionsOk ("uploading" ::
        (statusWrites (processVideoFromUrlEvents url uenv s1 id1)).map Prod.fst) = true ∧
     nonDecreasing (processingProgressValues
        (statusWrites (processVideoFromUrlEvents url uenv s1 id1))) = true) := by
  constructor
  · rw [processVideoEvents, statusWrites_append]
    rw [show statusWrites (pipelineHeadEvents (processVideoTranscript env)) =
          [("processing", some 10), ("processing", some 30),
           ("processing", some 60)] from rfl]
    rcases pipelineTailEvents_cases env.providerResp
        (applyEvents id s0 (pipelineHeadEvents (processVideoTranscript env))) id with
      h | ⟨cards, hne, h⟩
    · rw [h]
      exact ⟨by decide, by decide⟩
    · rw [h]
      rw [show statusWrites (WriteEvent.statusWrite "processing" (some 80) ::
            (cardEvents 0 cards ++ [WriteEvent.statusWrite "completed" (some 100)])) =
          ("processing", some 80) :: statusWrites
            (cardEvents 0 cards ++ [WriteEvent.statusWrite "completed" (some 100)])
          from rfl]
      rw [statusWrites_append, statusWrites_cardEvents]
      exact ⟨by decide, by decide⟩
  · rw [processVideoFromUrlEvents, statusWrites_append]
    rw [show statusWrites
          (pipelineHeadEvents (processVideoFromUrlTranscript url uenv)) =
          [("processing", some 10), ("processing", some 30),
           ("processing", some 60)] from rfl]
    rcases pipelineTailEvents_cases uenv.providerResp
        (applyEvents id1 s1
          (pipelineHeadEvents (processVideoFromUrlTranscript url uenv))) id1 with
      h | ⟨cards, hne, h⟩
    · rw [h]
      exact ⟨by decide, by decide⟩
    · rw [h]
      rw [show statusWrites (WriteEvent.statusWrite "processing" (some 80) ::
            (cardEvents 0 cards ++ [WriteEvent.statusWrite "completed" (some 100)])) =
          ("processing", some 80) :: statusWrites
            (cardEvents 0 cards ++ [WriteEvent.statusWrite "completed" (some 100)])
          from rfl]
      rw [statusWrites_append, statusWrites_cardEvents]
      exact ⟨by decide, by decide⟩

/-- C3: the code retains no failure cause.  Three runs of the same job
that fail for three different reasons — a provider exception with one
message, a provider exception with another message, and a generation
result with zero valid cards — leave byte-for-byte identical stores, whose
job record reads status failed, progress 0 and nothing else; the polled
record cannot distinguish any cause from a generic failure. -/
theorem spec_c3 :
    processVideoRun
        { audio := Except.ok tDemo, providerResp := Except.error "Connection error." }
        sDemo 1 =
      processVideoRun
        { audio := Except.ok tDemo,
          providerResp := Except.error "You exceeded your current quota" }
        sDemo 1 ∧
    processVideoRun
        { audio := Except.ok tDemo, providerResp := Except.error "Connection error." }
        sDemo 1 =
      processVideoRun
        { audio := Except.ok tDemo, providerResp := Except.ok [] } sDemo 1 ∧
    (getVideo (processVideoRun
        { audio := Except.ok tDemo, providerResp := Except.error "Connection error." }
        sDemo 1) 1).map Video.status = some "failed" ∧
    (getVideo (processVideoRun
        { audio := Except.ok tDemo, providerResp := Except.error "Connection error." }
        sDemo 1) 1).map Video.processingProgress = some 0 :=
  ⟨by decide, by decide, by decide, by decide⟩

/-- C2 counterexample: a reachable intermediate state of a successful run
(after the first flashcard write, before the completed write) holds one
flashcard for job 1 while the job status is still processing, refuting
the claim that flashcards exist only at status completed. -/
theorem spec_c2_counterexample :
    (getFlashcardsByVideoId
        (applyEvents 1 sDemo
          ((processVideoEvents
            { audio := Except.ok tDemo, providerResp := Except.ok demoRaw }
            sDemo 1).take 6)) 1).length = 1 ∧
    (getVideo (applyEvents 1 sDemo
        ((processVideoEvents
          { audio := Except.ok tDemo, providerResp := Except.ok demoRaw }
          sDemo 1).take 6)) 1).map Video.status = some "processing" :=
  ⟨by decide, by decide⟩

/-- C2 amended: flashcards may exist while the job is still processing
(between the batch writes and the completed write), but at the end of
every pipeline run on a job that existed with no prior flashcards, the
job has flashcards exactly when its status is completed. -/
theorem spec_c2 (env : PipelineEnv) (s0 : MemStorage) (id : Nat) (v : Video)
    (hv : getVideo s0 id = some v)
    (hclean : s0.flashcards.filter (fun c => c.videoId == id) = []) :
    (getFlashcardsByVideoId (processVideoRun env s0 id) id ≠ [] ↔
      (getVideo (processVideoRun env s0 id) id).map Video.status =
        some "completed") := by
  have hvM := applyEvents_head_getVideo (processVideoTranscript env) s0 id v hv
  rcases pipelineTailEvents_cases env.providerResp
      (applyEvents id s0 (pipelineHeadEvents (processVideoTranscript env))) id with
    h | ⟨cards, hne, h⟩
  · rw [processVideoRun_decompose, h, applyEvents_singleton]
    simp only [applyEvent]
    constructor
    · intro hcards
      exfalso
      apply hcards
      rw [getFlashcardsByVideoId, flashcards_updateVideoStatus,
          applyEvents_head_flashcards, hclean]
      rfl
    · intro hst
      exfalso
      rw [getVideo_updateVideoStatus _ _ _ _ _ hvM] at hst
      simp at hst
  · rw [processVideoRun_decompose, h, applyEvents_cons, applyEvents_append,
        applyEvents_singleton]
    simp only [applyEvent]
    constructor
    · intro _
      have hv5 := getVideo_updateVideoStatus _ id "processing" (some 80) _ hvM
      have hv6 : getVideo
          (applyEvents id
            (updateVideoStatus
              (applyEvents id s0 (pipelineHeadEvents (processVideoTranscript env)))
              id "processing" (some 80))
            (cardEvents 0 cards)) id =
          getVideo
            (updateVideoStatus
              (applyEvents id s0 (pipelineHeadEvents (processVideoTranscript env)))
              id "processing" (some 80)) id := by
        rw [getVideo, getVideo, videos_applyEvents_cardEvents]
      rw [getVideo_updateVideoStatus _ _ _ _ _ (hv6.trans hv5)]
      rfl
    · intro _
      rw [getFlashcardsByVideoId, flashcards_updateVideoStatus,
          flashcards_applyEvents_cardEvents, flashcards_updateVideoStatus,
          applyEvents_head_flashcards, List.filter_append, hclean,
          filter_mkCards, List.nil_append, sortByOrder_mkCards]
      cases cards with
      | nil => exact absurd rfl hne
      | cons c cs => simp [mkCards]

/-- Witness for C2: the demo job, processed successfully, ends with
flashcards and status completed. -/
theorem spec_c2_witness :
    getVideo sDemo 1 = some vDemo ∧
    sDemo.flashcards.filter (fun c => c.videoId == 1) = [] ∧
    (getFlashcardsByVideoId (processVideoRun
        { audio := Except.ok tDemo, providerResp := Except.ok demoRaw }
        sDemo 1) 1 ≠ [] ↔
      (getVideo (processVideoRun
          { audio := Except.ok tDemo, providerResp := Except.ok demoRaw }
          sDemo 1) 1).map Video.status = some "completed") :=
  ⟨rfl, rfl,
    spec_c2 { audio := Except.ok tDemo, providerResp := Except.ok demoRaw }
      sDemo 1 vDemo rfl rfl⟩

/-- C4: for every successful run persisting the generation result on a
clean job, the stored cards carry ordinals exactly `0..N-1` in the
provider-returned order with the provider question/answer texts, and
`getFlashcardsByVideoId` always returns its result sorted ascending by
ordinal. -/
theorem spec_c4 (env : PipelineEnv) (s0 : MemStorage) (id : Nat) (v : Video)
    (cards : List FlashcardPair)
    (hv : getVideo s0 id = some v)
    (hclean : s0.flashcards.filter (fun c => c.videoId == id) = [])
    (hgen : (generateFlashcardsRun env.providerResp (processVideoTranscript env)).2 =
      Except.ok cards)
    (hne : cards ≠ []) :
    (getFlashcardsByVideoId (processVideoRun env s0 id) id).map
        (fun c => c.order) = List.range cards.length ∧
    (getFlashcardsByVideoId (processVideoRun env s0 id) id).map
        (fun c => (c.question, c.answer)) =
      cards.map (fun c => (c.question, c.answer)) ∧
    ∀ (s2 : MemStorage) (w : Nat),
      (getFlashcardsByVideoId s2 w).Pairwise (fun a b => a.order ≤ b.order) := by
  obtain ⟨nid, hcards⟩ :=
    processVideoRun_flashcards env s0 id v cards hv hclean hgen hne
  refine ⟨?_, ?_, fun s2 w => pairwise_sortByOrder _⟩
  · rw [hcards, mkCards_map_order, List.range_eq_range']
  · rw [hcards, mkCards_map_qa]

/-- Witness for C4: the demo job run with a two-card provider response
stores ordinals 0 and 1 in provider order. -/
theorem spec_c4_witness :
    getVideo sDemo 1 = some vDemo ∧
    sDemo.flashcards.filter (fun c => c.videoId == 1) = [] ∧
    (generateFlashcardsRun (Except.ok demoRaw)
        (processVideoTranscript
          { audio := Except.ok tDemo, providerResp := Except.ok demoRaw })).2 =
      Except.ok [{ question := "q1", answer := "a1" },
                 { question := "q2", answer := "a2" }] ∧
    ([{ question := "q1", answer := "a1" },
      { question := "q2", answer := "a2" }] : List FlashcardPair) ≠ [] ∧
    ((getFlashcardsByVideoId (processVideoRun
        { audio := Except.ok tDemo, providerResp := Except.ok demoRaw }
        sDemo 1) 1).map (fun c => c.order) =
      List.range ([{ question := "q1", answer := "a1" },
        { question := "q2", answer := "a2" }] : List FlashcardPair).length ∧
     (getFlashcardsByVideoId (processVideoRun
        { audio := Except.ok tDemo, providerResp := Except.ok demoRaw }
        sDemo 1) 1).map (fun c => (c.question, c.answer)) =
      ([{ question := "q1", answer := "a1" },
        { question := "q2", answer := "a2" }] : List FlashcardPair).map
        (fun c => (c.question, c.answer)) ∧
     ∀ (s2 : MemStorage) (w : Nat),
       (getFlashcardsByVideoId s2 w).Pairwise (fun a b => a.order ≤ b.order)) :=
  ⟨rfl, rfl, rfl, by decide,
    spec_c4 { audio := Except.ok tDemo, providerResp := Except.ok demoRaw }
      sDemo 1 vDemo
      [{ question := "q1", answer := "a1" }, { question := "q2", answer := "a2" }]
      rfl rfl rfl (by decide)⟩

/-- C5: a provider response of nine pairs in which exactly one has an
empty answer (the rest well-formed) is filtered to eight pairs, and a
pipeline run of the demo job on such a response persists exactly eight
flashcards. -/
theorem spec_c5 (pre post : List RawCard) (bad : RawCard)
    (hlen : (pre ++ post).length = 8)
    (hgood : ∀ c ∈ pre ++ post,
      (normalizeRaw c).question ≠ "" ∧ (normalizeRaw c).answer ≠ "")
    (hbad : (normalizeRaw bad).answer = "") :
    (shapeFilter (pre ++ bad :: post)).length = 8 ∧
    (getFlashcardsByVideoId (processVideoRun
        { audio := Except.ok tDemo, providerResp := Except.ok (pre ++ bad :: post) }
        sDemo 1) 1).length = 8 := by
  have hkeep : ∀ l : List RawCard,
      (∀ c ∈ l, (normalizeRaw c).question ≠ "" ∧ (normalizeRaw c).answer ≠ "") →
      (l.map normalizeRaw).filter
        (fun c => c.question != "" && c.answer != "") = l.map normalizeRaw := by
    intro l hl
    apply List.filter_eq_self.mpr
    intro a ha
    rcases List.mem_map.mp ha with ⟨c, hc, rfl⟩
    rcases hl c hc with ⟨h1, h2⟩
    simp [h1, h2]
  have hfil : shapeFilter (pre ++ bad :: post) = (pre ++ post).map normalizeRaw := by
    unfold shapeFilter
    rw [List.map_append, List.map_cons, List.filter_append,
        List.filter_cons_of_neg (by simp [hbad]),
        hkeep pre (fun c hc => hgood c (List.mem_append.mpr (Or.inl hc))),
        hkeep post (fun c hc => hgood c (List.mem_append.mpr (Or.inr hc))),
        List.map_append]
  constructor
  · rw [hfil, List.length_map, hlen]
  · have hgen : (generateFlashcardsRun (Except.ok (pre ++ bad :: post)) tDemo).2 =
        Except.ok ((pre ++ post).map normalizeRaw) := by
      unfold generateFlashcardsRun
      rw [validate_tDemo]
      show Except.ok (shapeFilter (pre ++ bad :: post)) = _
      rw [hfil]
    have hne : (pre ++ post).map normalizeRaw ≠ [] := by
      intro hnil
      have h8 : ((pre ++ post).map normalizeRaw).length = 8 := by
        rw [List.length_map, hlen]
      rw [hnil] at h8
      simp at h8
    obtain ⟨nid, hcards⟩ := processVideoRun_flashcards
      { audio := Except.ok tDemo, providerResp := Except.ok (pre ++ bad :: post) }
      sDemo 1 vDemo ((pre ++ post).map normalizeRaw) rfl rfl hgen hne
    rw [hcards, mkCards_length, List.length_map, hlen]

/-- Witness for C5: a nine-entry response whose fifth entry has an empty
answer persists exactly eight flashcards. -/
theorem spec_c5_witness :
    (([{ question := some "q1", answer := some "a1" },
       { question := some "q2", answer := some "a2" },
       { question := some "q3", answer := some "a3" },
       { question := some "q4", answer := some "a4" }] ++
      [{ question := some "q6", answer := some "a6" },
       { question := some "q7", answer := some "a7" },
       { question := some "q8", answer := some "a8" },
       { question := some "q9", answer := some "a9" }] : List RawCard)).length = 8 ∧
    (∀ c ∈ ([{ question := some "q1", answer := some "a1" },
       { question := some "q2", answer := some "a2" },
       { question := some "q3", answer := some "a3" },
       { question := some "q4", answer := some "a4" }] ++
      [{ question := some "q6", answer := some "a6" },
       { question := some "q7", answer := some "a7" },
       { question := some "q8", answer := some "a8" },
       { question := some "q9", answer := some "a9" }] : List RawCard),
      (normalizeRaw c).question ≠ "" ∧ (normalizeRaw c).answer ≠ "") ∧
    (normalizeRaw { question := some "q5", answer := some "" }).answer = "" ∧
    ((shapeFilter ([{ question := some "q1", answer := some "a1" },
       { question := some "q2", answer := some "a2" },
       { question := some "q3", answer := some "a3" },
       { question := some "q4", answer := some "a4" }] ++
      { question := some "q5", answer := some "" } ::
      [{ question := some "q6", answer := some "a6" },
       { question := some "q7", answer := some "a7" },
       { question := some "q8", answer := some "a8" },
       { question := some "q9", answer := some "a9" }])).length = 8 ∧
     (getFlashcardsByVideoId (processVideoRun
        { audio := Except.ok tDemo,
          providerResp := Except.ok
            ([{ question := some "q1", answer := some "a1" },
              { question := some "q2", answer := some "a2" },
              { question := some "q3", answer := some "a3" },
              { question := some "q4", answer := some "a4" }] ++
             { question := some "q5", answer := some "" } ::
             [{ question := some "q6", answer := some "a6" },
              { question := some "q7", answer := some "a7" },
              { question := some "q8", answer := some "a8" },
              { question := some "q9", answer := some "a9" }]) }
        sDemo 1) 1).length = 8) :=
  ⟨by decide, by decide, rfl,
    spec_c5
      [{ question := some "q1", answer := some "a1" },
       { question := some "q2", answer := some "a2" },
       { question := some "q3", answer := some "a3" },
       { question := some "q4", answer := some "a4" }]
      [{ question := some "q6", answer := some "a6" },
       { question := some "q7", answer := some "a7" },
       { question := some "q8", answer := some "a8" },
       { question := some "q9", answer := some "a9" }]
      { question := some "q5", answer := some "" }
      (by decide) (by decide) rfl⟩

/-- A character absent from both the letter stock of the clean fixture and
its padding is absent from the whole lowercased fixture text. -/
theorem tGoodLong_missing (c : Char)
    (hc1 : c ∉ "concept example ".data.map Char.toLower)
    (hc2 : c ≠ Char.toLower 'x') :
    c ∉ "concept example ".data.map Char.toLower ++
      List.replicate 2984 (Char.toLower 'x') := by
  rw [List.mem_append]
  rintro (hx | hx)
  · exact hc1 hx
  · rw [List.mem_replicate] at hx
    exact hc2 hx.2

/-- C7 amended: every transcript of length 3000 that contains "concept"
and "example" and whose lowercased text contains none of the
provider-failure fingerprints is accepted by the quality gate, and the
generation call is attempted. -/
theorem spec_c7 (t : String) (resp : Except String (List RawCard))
    (hlen : t.data.length = 3000)
    (hc : jsIncludes t "concept" = true)
    (he : jsIncludes t "example" = true)
    (hfp : ∀ f ∈ errorFingerprints, jsIncludes (jsToLower t) f = false) :
    validateTranscription t = none ∧ (generateFlashcardsRun resp t).1 = true := by
  have h1 : ¬(t = "" ∨ t.data.length < 100) := by
    rintro (rfl | hlt)
    · exact absurd hlen (by decide)
    · omega
  have hfps : containsAnyKeyword (jsToLower t) errorFingerprints = false := by
    rw [containsAnyKeyword]
    cases hb : errorFingerprints.any fun k => jsIncludes (jsToLower t) k with
    | false => rfl
    | true =>
      exfalso
      rcases List.any_eq_true.mp hb with ⟨k, hk, hkt⟩
      rw [hfp k hk] at hkt
      exact Bool.false_ne_true hkt
  have h2 : ¬(containsAnyKeyword (jsToLower t) errorFingerprints = true ∨
      t.data.length > 50000) := by
    rintro (hx | hx)
    · rw [hfps] at hx
      exact Bool.false_ne_true hx
    · omega
  have hedu : containsAnyKeyword (jsToLower t) educationalKeywords = true := by
    apply List.any_eq_true.mpr
    refine ⟨"concept", by simp [educationalKeywords], ?_⟩
    show hasSubList "concept".data (jsToLower t).data = true
    have hmap := hasSubList_map Char.toLower "concept".data t.data hc
    rw [show "concept".data.map Char.toLower = "concept".data from by decide] at hmap
    exact hmap
  have h3 : ¬(containsAnyKeyword (jsToLower t) educationalKeywords = false) := by
    rw [hedu]
    exact fun hx => absurd hx (by decide)
  have hval : validateTranscription t = none := by
    unfold validateTranscription
    rw [if_neg h1, if_neg h2, if_neg h3]
  refine ⟨hval, ?_⟩
  unfold generateFlashcardsRun
  rw [hval]
  cases resp <;> rfl

/-- C7 counterexample: a transcript of length 3000 containing "concept"
and "example" that also contains the fingerprint "error" is rejected by
the quality gate and the generation call is never attempted, refuting the
claim for arbitrary such transcripts. -/
theorem spec_c7_counterexample :
    tBadLong.data.length = 3000 ∧
    jsIncludes tBadLong "concept" = true ∧
    jsIncludes tBadLong "example" = true ∧
    validateTranscription tBadLong =
      some "Cannot generate flashcards from error messages or invalid transcriptions" ∧
    (generateFlashcardsRun (Except.ok demoRaw) tBadLong).1 = false := by
  have hlen : tBadLong.data.length = 3000 := by
    show ("concept example error".data ++ List.replicate 2979 'x').length = 3000
    rw [List.length_append, List.length_replicate]
    rfl
  have hfp : containsAnyKeyword (jsToLower tBadLong) errorFingerprints = true := by
    apply List.any_eq_true.mpr
    refine ⟨"error", by simp [errorFingerprints], ?_⟩
    show hasSubList "error".data (jsToLower tBadLong).data = true
    have hdata : (jsToLower tBadLong).data =
        "concept example ".data ++
          ("error".data ++ List.replicate 2979 (Char.toLower 'x')) := by
      show ("concept example error".data ++ List.replicate 2979 'x').map Char.toLower = _
      rw [List.map_append, List.map_replicate]
      rw [show "concept example error".data.map Char.toLower =
            "concept example ".data ++ "error".data from by decide]
      rw [List.append_assoc]
    rw [hdata]
    exact (hasSubList_iff _ _).mpr
      ⟨"concept example ".data, List.replicate 2979 (Char.toLower 'x'), rfl⟩
  have hval : validateTranscription tBadLong =
      some "Cannot generate flashcards from error messages or invalid transcriptions" := by
    unfold validateTranscription
    rw [if_neg, if_pos (Or.inl hfp)]
    rintro (h | h)
    · rw [h] at hlen
      exact absurd hlen (by decide)
    · omega
  refine ⟨hlen, by decide, by decide, hval, ?_⟩
  unfold generateFlashcardsRun
  rw [hval]

/-- Witness for C7: a clean transcript of length 3000 with "concept" and
"example" and no fingerprint is accepted and generation is attempted. -/
theorem spec_c7_witness :
    tGoodLong.data.length = 3000 ∧
    jsIncludes tGoodLong "concept" = true ∧
    jsIncludes tGoodLong "example" = true ∧
    (∀ f ∈ errorFingerprints, jsIncludes (jsToLower tGoodLong) f = false) ∧
    (validateTranscription tGoodLong = none ∧
      (generateFlashcardsRun (Except.ok demoRaw) tGoodLong).1 = true) := by
  have hlen : tGoodLong.data.length = 3000 := by
    show ("concept example ".data ++ List.replicate 2984 'x').length = 3000
    rw [List.length_append, List.length_replicate]
    rfl
  have hdata : (jsToLower tGoodLong).data =
      "concept example ".data.map Char.toLower ++
        List.replicate 2984 (Char.toLower 'x') := by
    show ("concept example ".data ++ List.replicate 2984 'x').map Char.toLower = _
    rw [List.map_append, List.map_replicate]
  have hfp : ∀ f ∈ errorFingerprints, jsIncludes (jsToLower tGoodLong) f = false := by
    intro f hf
    show hasSubList f.data (jsToLower tGoodLong).data = false
    rw [hdata]
    fin_cases hf
    · exact hasSubList_eq_false_of_missing _ _ 'r' (by decide)
        (tGoodLong_missing 'r' (by decide) (by decide))
    · exact hasSubList_eq_false_of_missing _ _ 'f' (by decide)
        (tGoodLong_missing 'f' (by decide) (by decide))
    · exact hasSubList_eq_false_of_missing _ _ 'i' (by decide)
        (tGoodLong_missing 'i' (by decide) (by decide))
    · exact hasSubList_eq_false_of_missing _ _ 'q' (by decide)
        (tGoodLong_missing 'q' (by decide) (by decide))
    · exact hasSubList_eq_false_of_missing _ _ 'b' (by decide)
        (tGoodLong_missing 'b' (by decide) (by decide))
  exact ⟨hlen, by decide, by decide, hfp,
    spec_c7 tGoodLong (Except.ok demoRaw) hlen (by decide) (by decide) hfp⟩
